import Mathlib

set_option autoImplicit false

/-!
Shallow embedding of `cmd/user_stream_consumer/main.go` from the
poc-dynamostreams repository: a Lambda handler that consumes DynamoDB
stream records delivered over SQS and keeps an organizations table's
MEMBERSHIP records in sync with each user's `organizations` list.

Modelling conventions:
* DynamoDB attribute values are the inductive `AttributeValue`; an image
  (`OldImage` / `NewImage`) is an association list from attribute name to
  value, looked up with first-match semantics like a Go map.
* The aws-lambda-go accessors `DynamoDBAttributeValue.String()` and
  `.List()` panic when the value has the wrong type (and a missing map key
  yields the zero value, which also panics); a panic aborts the whole
  Lambda invocation.  Both panics and returned errors are modelled as the
  `.error` outcome of `Except String`.
* `attributevalue.MarshalMap` applied to the `organizationMembership`
  struct is modelled as a `marshal` function parameter returning
  `Option Item`, so that its failure path (which the Go code reaches with
  `continue`) can be exercised; `marshalMembership` is the actual
  marshaller, which always succeeds on the two string fields.
* The handler's observable behaviour is a `HandlerResult`: the sequence of
  `BatchWriteItem` calls issued, the structured log entries emitted, and
  the returned `Except` value.
-/

namespace DynamoStreams

/-- An element of a DynamoDB list attribute, as far as this program
inspects one: the handler only ever calls `.String()` on list elements,
which succeeds exactly when the element is a string, so deeper structure
never matters and every non-string element is collapsed to `other`. -/
inductive ScalarValue where
  | S (s : String)
  | other
deriving DecidableEq, Repr

/-- DynamoDB attribute values as far as this program inspects them:
strings, lists, and a constructor standing for every other wire type
(number, null, map, ...), which the accessors below reject. -/
inductive AttributeValue where
  | S (s : String)
  | L (l : List ScalarValue)
  | other
deriving DecidableEq, Repr

/-- `DynamoDBAttributeValue.String()` on a list element: returns the
string payload, panics (modelled as `.error`) on any other type. -/
def ScalarValue.getS : ScalarValue → Except String String
  | .S s => .ok s
  | _ => .error "DynamoDBAttributeValue: String operation on non-string value"

/-- `DynamoDBAttributeValue.String()`: returns the string payload, panics
(modelled as `.error`) on any other type — including the zero value
produced by indexing a Go map at a missing key. -/
def AttributeValue.getS : AttributeValue → Except String String
  | .S s => .ok s
  | _ => .error "DynamoDBAttributeValue: String operation on non-string value"

/-- `DynamoDBAttributeValue.List()`: returns the element list, panics
(modelled as `.error`) on any other type. -/
def AttributeValue.getL : AttributeValue → Except String (List ScalarValue)
  | .L l => .ok l
  | _ => .error "DynamoDBAttributeValue: List operation on non-list value"

/-- A DynamoDB image: Go `map[string]events.DynamoDBAttributeValue`,
modelled as an association list with first-match lookup. -/
abbrev Image := List (String × AttributeValue)

/-- Go `image["pk"].String()`: a missing key yields the zero attribute
value, whose `String()` panics; a non-string value also panics. -/
def getPK (img : Image) : Except String String :=
  match img.lookup "pk" with
  | none => .error "DynamoDBAttributeValue: String operation on non-string value"
  | some v => v.getS

/-- The Go pattern
`if orgs, ok := image["organizations"]; ok { for _, org := range orgs.List() { append(..., org.String()) } }`:
an absent attribute gives the empty list (not an error); a present
attribute must be a list of strings, anything else panics. -/
def getOrgs (img : Image) : Except String (List String) :=
  match img.lookup "organizations" with
  | none => .ok []
  | some v => do
      let l ← v.getL
      l.mapM ScalarValue.getS

/-- `strings.Split` specialised to a one-character separator: the list of
maximal runs between occurrences of `c`, never empty. -/
def splitOnChar (c : Char) : List Char → List (List Char)
  | [] => [[]]
  | x :: xs =>
    let r := splitOnChar c xs
    if x = c then [] :: r
    else
      match r with
      | [] => [[x]]
      | y :: ys => (x :: y) :: ys

/-- The composite-key separator character of the repository (`"#"`,
code point 35). -/
def sep : Char := Char.ofNat 35

/-- `extractUserID` from main.go: `strings.Split(compositeKey, "#")`; if
fewer than two parts, return the original key, else return `parts[1]`. -/
def extractUserID (compositeKey : String) : String :=
  match splitOnChar sep compositeKey.toList with
  | _ :: second :: _ => String.mk second
  | _ => compositeKey

/-- A marshalled item or key: `map[string]types.AttributeValue`. -/
abbrev Item := List (String × AttributeValue)

/-- One element of the `[]types.WriteRequest` slice: either a
`PutRequest` carrying a marshalled item or a `DeleteRequest` carrying a
key map. -/
inductive WriteRequest where
  | put (item : Item)
  | delete (key : Item)
deriving DecidableEq, Repr

/-- The marshal step of `createWriteRequests`:
`attributevalue.MarshalMap(organizationMembership{PK: pk, SK: sk})`.
It is a parameter (`String → String → Option Item`) so that the error
branch the Go code handles with `continue` is representable. -/
abbrev Marshal := String → String → Option Item

/-- What `attributevalue.MarshalMap` actually produces on the two-string
`organizationMembership` struct with `dynamodbav:"pk"` / `"sk"` tags: it
always succeeds. -/
def marshalMembership : Marshal :=
  fun pk sk => some [("pk", AttributeValue.S pk), ("sk", AttributeValue.S sk)]

/-- The delete request built for one organization id:
key `pk = "ORGANIZATION#" + orgID`, `sk = "MEMBERSHIP#" + extractUserID userPK`. -/
def deleteOp (userPK orgID : String) : WriteRequest :=
  .delete [("pk", AttributeValue.S ("ORGANIZATION#" ++ orgID)),
           ("sk", AttributeValue.S ("MEMBERSHIP#" ++ extractUserID userPK))]

/-- The put request built for one organization id under the real
marshaller. -/
def putOp (userPK orgID : String) : WriteRequest :=
  .put [("pk", AttributeValue.S ("ORGANIZATION#" ++ orgID)),
        ("sk", AttributeValue.S ("MEMBERSHIP#" ++ extractUserID userPK))]

/-- `createWriteRequests(userPK, organizations, isDelete)` from main.go:
one request per list element, in order; a delete request needs no
marshalling; a put request marshals the membership struct and on error
`continue`s, silently skipping the item. -/
def createWriteRequests (marshal : Marshal) (userPK : String)
    (organizations : List String) (isDelete : Bool) : List WriteRequest :=
  match organizations with
  | [] => []
  | orgID :: rest =>
    let pk := "ORGANIZATION#" ++ orgID
    let sk := "MEMBERSHIP#" ++ extractUserID userPK
    if isDelete then
      .delete [("pk", AttributeValue.S pk), ("sk", AttributeValue.S sk)] ::
        createWriteRequests marshal userPK rest isDelete
    else
      match marshal pk sk with
      | none => createWriteRequests marshal userPK rest isDelete
      | some item => .put item :: createWriteRequests marshal userPK rest isDelete

/-- The MODIFY branch's delta computation and write assembly: nested
linear scans compute `toRemove = oldOrgs` entries absent from `newOrgs`
and `toAdd = newOrgs` entries absent from `oldOrgs`, then the delete
requests are appended before the put requests. -/
def modifyWrites (marshal : Marshal) (userPK : String)
    (oldOrgs newOrgs : List String) : List WriteRequest :=
  createWriteRequests marshal userPK
      (oldOrgs.filter fun org => !(newOrgs.contains org)) true
    ++ createWriteRequests marshal userPK
      (newOrgs.filter fun org => !(oldOrgs.contains org)) false

/-- `events.DynamoDBStreamRecord`: the nested `dynamodb` object with its
optional old and new images (a Go nil map is `none`). -/
structure StreamRecord where
  OldImage : Option Image
  NewImage : Option Image
deriving DecidableEq, Repr

/-- `events.DynamoDBEventRecord`: the event name (`"INSERT"`,
`"MODIFY"`, `"REMOVE"`, or anything else) and the change payload. -/
structure EventRecord where
  eventName : String
  change : StreamRecord
deriving DecidableEq, Repr

/-- The per-record switch of the handler: computes the write-request
slice for one decoded stream record, or the panic that computing it
raises.  `REMOVE` with no old image, `MODIFY` or `INSERT` with no new
image, and unrecognised event names all fall through to an empty slice. -/
def reconcileRecord (marshal : Marshal) (der : EventRecord) :
    Except String (List WriteRequest) :=
  match der.eventName with
  | "REMOVE" =>
    match der.change.OldImage with
    | none => .ok []
    | some old => do
        let pk ← getPK old
        let orgs ← getOrgs old
        .ok (createWriteRequests marshal pk orgs true)
  | "MODIFY" =>
    match der.change.NewImage with
    | none => .ok []
    | some newImg => do
        let oldOrgs ←
          match der.change.OldImage with
          | none => .ok []
          | some old => getOrgs old
        let userPK ← getPK newImg
        let newOrgs ← getOrgs newImg
        .ok (modifyWrites marshal userPK oldOrgs newOrgs)
  | "INSERT" =>
    match der.change.NewImage with
    | none => .ok []
    | some newImg => do
        let pk ← getPK newImg
        let orgs ← getOrgs newImg
        .ok (createWriteRequests marshal pk orgs false)
  | _ => .ok []

/-- One `BatchWriteItem` call: destination table and the request slice
that was in flight. -/
structure StorageCall where
  table : String
  requests : List WriteRequest
deriving DecidableEq, Repr

/-- One structured log record, keeping the fields the handler attaches:
level, message, and the optional `table` / `requestCount` attributes. -/
structure LogEntry where
  level : String
  msg : String
  table : Option String
  requestCount : Option Nat
deriving DecidableEq, Repr

/-- The info log emitted before each `BatchWriteItem` call. -/
def infoWriteLog (table : String) (count : Nat) : LogEntry :=
  ⟨"INFO", "writing organization memberships", some table, some count⟩

/-- The error log emitted when a `BatchWriteItem` call fails; it carries
the destination table and the number of requests that were in flight. -/
def errorWriteLog (table : String) (count : Nat) : LogEntry :=
  ⟨"ERROR", "failed to batch write memberships", some table, some count⟩

/-- The error log emitted when a record body fails to unmarshal. -/
def unmarshalErrLog : LogEntry :=
  ⟨"ERROR", "failed to unmarshal dynamo event", none, none⟩

/-- Structural decidable equality for `Except`, needed to compare handler
outcomes on concrete inputs. -/
instance {ε α : Type} [DecidableEq ε] [DecidableEq α] : DecidableEq (Except ε α) :=
  fun a b =>
    match a, b with
    | .ok x, .ok y =>
      if h : x = y then .isTrue (congrArg Except.ok h)
      else .isFalse (fun hh => h (Except.ok.inj hh))
    | .error x, .error y =>
      if h : x = y then .isTrue (congrArg Except.error h)
      else .isFalse (fun hh => h (Except.error.inj hh))
    | .ok _, .error _ => .isFalse (fun hh => Except.noConfusion hh)
    | .error _, .ok _ => .isFalse (fun hh => Except.noConfusion hh)

/-- Everything observable about one handler invocation: the storage calls
issued (in order), the log entries emitted (in order), and the returned
error or success. -/
structure HandlerResult where
  calls : List StorageCall
  logs : List LogEntry
  result : Except String Unit
deriving DecidableEq, Repr

/-- The result of `json.Unmarshal` on one SQS record body: either a
decoded `EventRecord` or the unmarshalling error. -/
abbrev Body := Except String EventRecord

/-- The storage collaborator: `client.BatchWriteItem` for a given table
and request slice, which may fail. -/
abbrev BatchWrite := String → List WriteRequest → Except String Unit

/-- The handler's `for _, record := range event.Records` loop, processing
records strictly in order: an unmarshal failure or a panic aborts the
whole invocation; an empty write slice skips the storage call; a failed
storage call logs table and request count and returns the wrapped error;
otherwise the loop continues. -/
def handlerLoop (marshal : Marshal) (bw : BatchWrite) (tableName : String) :
    List Body → HandlerResult
  | [] => ⟨[], [], .ok ()⟩
  | body :: rest =>
    match body with
    | .error e =>
        ⟨[], [unmarshalErrLog],
         .error ("failed to unmarshal DynamoDB event record: " ++ e)⟩
    | .ok der =>
      match reconcileRecord marshal der with
      | .error e => ⟨[], [], .error e⟩
      | .ok writes =>
        if writes.length = 0 then
          handlerLoop marshal bw tableName rest
        else
          match bw tableName writes with
          | .error e =>
              ⟨[⟨tableName, writes⟩],
               [infoWriteLog tableName writes.length,
                errorWriteLog tableName writes.length],
               .error ("failed to batch write organization memberships: " ++ e)⟩
          | .ok _ =>
            let r := handlerLoop marshal bw tableName rest
            ⟨⟨tableName, writes⟩ :: r.calls,
             infoWriteLog tableName writes.length :: r.logs,
             r.result⟩

/-- The full handler closure: resolves the destination table from
`TABLE_NAME` with the `"poc-organizations"` default, logs the batch size,
then runs the record loop. -/
def handler (marshal : Marshal) (bw : BatchWrite) (getenv : String → String)
    (records : List Body) : HandlerResult :=
  let tableName := if getenv "TABLE_NAME" = "" then "poc-organizations"
                   else getenv "TABLE_NAME"
  let r := handlerLoop marshal bw tableName records
  { r with logs := ⟨"INFO", "processing sqs event", none, some records.length⟩ :: r.logs }

/-- A well-formed user image: string `pk` attribute and a list-of-strings
`organizations` attribute, exactly the shape the stream delivers for the
user table records. -/
def mkImage (pk : String) (orgs : List String) : Image :=
  [("pk", AttributeValue.S pk),
   ("organizations", AttributeValue.L (orgs.map ScalarValue.S))]

/-- Drop everything up to and including the first separator, `none` when
there is no separator.  Support for `localID_claim`. -/
def dropThroughSep : List Char → Option (List Char)
  | [] => none
  | c :: cs => if c = sep then some cs else dropThroughSep cs

/-- The spec's description of `localID`: strip everything up through and
including the separator character and return the (whole) remainder; if
the separator is absent return the key unchanged.  Stated from the spec's
words, to be compared with `extractUserID` from the source. -/
def localID_claim (k : String) : String :=
  match dropThroughSep k.toList with
  | some rest => String.mk rest
  | none => k

/-- Decidable check that an image's `pk` attribute is missing or is not a
string — exactly the condition under which `getPK` fails. -/
def pkBad (img : Image) : Bool :=
  match img.lookup "pk" with
  | some (AttributeValue.S _) => false
  | _ => true

/-- A marshaller that fails on the single key `"ORGANIZATION#bad"`,
exercising the `continue`-on-error branch of `createWriteRequests`. -/
def failingMarshal : Marshal :=
  fun pk sk => if pk = "ORGANIZATION#bad" then none else marshalMembership pk sk

/-- An INSERT notification for `USER#1` with organizations `bad`, `good`. -/
def insertBadGood : EventRecord :=
  ⟨"INSERT", ⟨none, some (mkImage "USER#1" ["bad", "good"])⟩⟩

/-- The spec's worked MODIFY example: `USER#123`, before
`["org1","org2"]`, after `["org2","org3"]`. -/
def exampleModify : EventRecord :=
  ⟨"MODIFY", ⟨some (mkImage "USER#123" ["org1", "org2"]),
              some (mkImage "USER#123" ["org2", "org3"])⟩⟩

/-! ## Supporting lemmas -/

theorem createWriteRequests_deletes (marshal : Marshal) (userPK : String)
    (orgs : List String) :
    createWriteRequests marshal userPK orgs true = orgs.map (deleteOp userPK) := by
  induction orgs with
  | nil => rfl
  | cons o rest ih => simp [createWriteRequests, deleteOp, ih]

theorem createWriteRequests_puts (userPK : String) (orgs : List String) :
    createWriteRequests marshalMembership userPK orgs false
      = orgs.map (putOp userPK) := by
  induction orgs with
  | nil => rfl
  | cons o rest ih => simp [createWriteRequests, marshalMembership, putOp, ih]

theorem createWriteRequests_filterMap (marshal : Marshal) (userPK : String)
    (orgs : List String) :
    createWriteRequests marshal userPK orgs false
      = orgs.filterMap (fun orgID =>
          (marshal ("ORGANIZATION#" ++ orgID)
              ("MEMBERSHIP#" ++ extractUserID userPK)).map WriteRequest.put) := by
  induction orgs with
  | nil => rfl
  | cons o rest ih =>
    rw [List.filterMap_cons]
    cases h : marshal ("ORGANIZATION#" ++ o) ("MEMBERSHIP#" ++ extractUserID userPK) with
    | none => simp [createWriteRequests, h, ih]
    | some item => simp [createWriteRequests, h, ih]

theorem modifyWrites_eq (userPK : String) (B A : List String) :
    modifyWrites marshalMembership userPK B A
      = (B.filter fun o => !(A.contains o)).map (deleteOp userPK)
        ++ (A.filter fun o => !(B.contains o)).map (putOp userPK) := by
  rw [modifyWrites, createWriteRequests_deletes, createWriteRequests_puts]

theorem modifyWrites_nil_left (marshal : Marshal) (userPK : String)
    (A : List String) :
    modifyWrites marshal userPK [] A = createWriteRequests marshal userPK A false := by
  simp [modifyWrites, createWriteRequests]

theorem modifyWrites_nil_right (marshal : Marshal) (userPK : String)
    (B : List String) :
    modifyWrites marshal userPK B [] = createWriteRequests marshal userPK B true := by
  simp [modifyWrites, createWriteRequests]

theorem string_append_left_cancel (s a b : String) (h : s ++ a = s ++ b) :
    a = b := by
  cases a with
  | mk da =>
  cases b with
  | mk db =>
  cases s with
  | mk ds =>
  simp only [HAppend.hAppend, String.append] at h
  injection h with h2
  exact congrArg String.mk (List.append_cancel_left h2)

theorem deleteOp_inj (userPK a b : String)
    (h : deleteOp userPK a = deleteOp userPK b) : a = b := by
  simp only [deleteOp, WriteRequest.delete.injEq, List.cons.injEq,
    Prod.mk.injEq, AttributeValue.S.injEq, true_and, and_true] at h
  exact string_append_left_cancel _ _ _ h

theorem putOp_inj (userPK a b : String)
    (h : putOp userPK a = putOp userPK b) : a = b := by
  simp only [putOp, WriteRequest.put.injEq, List.cons.injEq,
    Prod.mk.injEq, AttributeValue.S.injEq, true_and, and_true] at h
  exact string_append_left_cancel _ _ _ h

theorem mapM_loop_getS (orgs acc : List String) :
    List.mapM.loop ScalarValue.getS (orgs.map ScalarValue.S) acc
      = Except.ok (acc.reverse ++ orgs) := by
  induction orgs generalizing acc with
  | nil => simp [List.mapM.loop, pure, Except.pure]
  | cons o rest ih =>
    simp [List.mapM.loop, ScalarValue.getS, Bind.bind, Except.bind, ih]

theorem mapM_getS_map (orgs : List String) :
    List.mapM ScalarValue.getS (orgs.map ScalarValue.S) = Except.ok orgs := by
  simp [List.mapM, mapM_loop_getS]

theorem getPK_mkImage (pk : String) (orgs : List String) :
    getPK (mkImage pk orgs) = .ok pk := rfl

theorem getOrgs_mkImage (pk : String) (orgs : List String) :
    getOrgs (mkImage pk orgs) = .ok orgs := by
  simp [getOrgs, mkImage, List.lookup, AttributeValue.getL, Bind.bind,
    Except.bind, mapM_loop_getS]

theorem splitOnChar_not_mem (c : Char) (xs : List Char) (h : c ∉ xs) :
    splitOnChar c xs = [xs] := by
  induction xs with
  | nil => rfl
  | cons x rest ih =>
    have hx : ¬ (x = c) := fun he => h (by simp [he])
    have hr : c ∉ rest := fun hm => h (List.mem_cons_of_mem _ hm)
    simp [splitOnChar, hx, ih hr]

theorem splitOnChar_append (c : Char) (xs ys : List Char) (h : c ∉ xs) :
    splitOnChar c (xs ++ c :: ys) = xs :: splitOnChar c ys := by
  induction xs with
  | nil => simp [splitOnChar]
  | cons x rest ih =>
    have hx : ¬ (x = c) := fun he => h (by simp [he])
    have hr : c ∉ rest := fun hm => h (List.mem_cons_of_mem _ hm)
    simp only [List.cons_append, splitOnChar]
    simp only [hx, if_false, ite_false, List.append_eq]
    rw [ih hr]

theorem string_toList_append (a b : String) :
    (a ++ b).toList = a.toList ++ b.toList := by
  cases a with
  | mk da =>
  cases b with
  | mk db =>
  rfl

theorem string_mk_toList (s : String) : String.mk s.toList = s := rfl

theorem extractUserID_no_sep (k : String) (h : sep ∉ k.toList) :
    extractUserID k = k := by
  unfold extractUserID
  rw [splitOnChar_not_mem sep k.toList h]

theorem extractUserID_two (a b : String)
    (ha : sep ∉ a.toList) (hb : sep ∉ b.toList) :
    extractUserID (a ++ "#" ++ b) = b := by
  have hh : ("#" : String).toList = [sep] := by decide
  unfold extractUserID
  rw [string_toList_append, string_toList_append, hh]
  rw [List.append_assoc, List.singleton_append,
    splitOnChar_append sep _ _ ha, splitOnChar_not_mem sep _ hb]
  exact string_mk_toList b

theorem extractUserID_three (a b r : String)
    (ha : sep ∉ a.toList) (hb : sep ∉ b.toList) :
    extractUserID (a ++ "#" ++ b ++ "#" ++ r) = b := by
  have hh : ("#" : String).toList = [sep] := by decide
  unfold extractUserID
  rw [string_toList_append, string_toList_append, string_toList_append,
    string_toList_append, hh]
  rw [List.append_assoc, List.append_assoc, List.append_assoc,
    List.singleton_append, List.singleton_append,
    splitOnChar_append sep _ _ ha, splitOnChar_append sep _ _ hb]
  exact string_mk_toList b

theorem handlerLoop_cons_skip (marshal : Marshal) (bw : BatchWrite)
    (t : String) (der : EventRecord) (rest : List Body)
    (h : reconcileRecord marshal der = .ok []) :
    handlerLoop marshal bw t (Except.ok der :: rest)
      = handlerLoop marshal bw t rest := by
  simp [handlerLoop, h]

theorem handlerLoop_cons_error (marshal : Marshal) (bw : BatchWrite)
    (t : String) (der : EventRecord) (rest : List Body) (e : String)
    (h : reconcileRecord marshal der = .error e) :
    handlerLoop marshal bw t (Except.ok der :: rest) = ⟨[], [], .error e⟩ := by
  simp [handlerLoop, h]

theorem handlerLoop_cons_bwfail (marshal : Marshal) (bw : BatchWrite)
    (t : String) (der : EventRecord) (rest : List Body)
    (writes : List WriteRequest) (e : String)
    (hr : reconcileRecord marshal der = .ok writes) (hne : writes ≠ [])
    (hbw : bw t writes = .error e) :
    handlerLoop marshal bw t (Except.ok der :: rest)
      = ⟨[⟨t, writes⟩],
         [infoWriteLog t writes.length, errorWriteLog t writes.length],
         .error ("failed to batch write organization memberships: " ++ e)⟩ := by
  have hlen : ¬ (writes.length = 0) := by
    simpa [List.length_eq_zero] using hne
  simp [handlerLoop, hr, hlen, hbw]

theorem handlerLoop_append_ok (marshal : Marshal) (bw : BatchWrite)
    (t : String) (l1 l2 : List Body)
    (h1 : (handlerLoop marshal bw t l1).result = .ok ()) :
    handlerLoop marshal bw t (l1 ++ l2)
      = ⟨(handlerLoop marshal bw t l1).calls ++ (handlerLoop marshal bw t l2).calls,
         (handlerLoop marshal bw t l1).logs ++ (handlerLoop marshal bw t l2).logs,
         (handlerLoop marshal bw t l2).result⟩ := by
  induction l1 with
  | nil => simp [handlerLoop]
  | cons body rest ih =>
    cases body with
    | error e => simp [handlerLoop] at h1
    | ok der =>
      cases hr : reconcileRecord marshal der with
      | error e => simp [handlerLoop, hr] at h1
      | ok writes =>
        by_cases hw : writes.length = 0
        · obtain rfl : writes = [] := List.length_eq_zero.1 hw
          simp only [List.cons_append, handlerLoop_cons_skip marshal bw t der _ hr] at h1 ⊢
          exact ih h1
        · cases hbw : bw t writes with
          | error e => simp [handlerLoop, hr, hw, hbw] at h1
          | ok u =>
            cases u
            have h1' : (handlerLoop marshal bw t rest).result = .ok () := by
              simpa [handlerLoop, hr, hw, hbw] using h1
            simp [handlerLoop, hr, hw, hbw, ih h1']

theorem handlerLoop_append_error (marshal : Marshal) (bw : BatchWrite)
    (t : String) (l1 l2 : List Body) (e : String)
    (h1 : (handlerLoop marshal bw t l1).result = .error e) :
    handlerLoop marshal bw t (l1 ++ l2) = handlerLoop marshal bw t l1 := by
  induction l1 with
  | nil => simp [handlerLoop] at h1
  | cons body rest ih =>
    cases body with
    | error e2 => simp [handlerLoop]
    | ok der =>
      cases hr : reconcileRecord marshal der with
      | error e2 => simp [handlerLoop, hr]
      | ok writes =>
        by_cases hw : writes.length = 0
        · obtain rfl : writes = [] := List.length_eq_zero.1 hw
          simp only [List.cons_append, handlerLoop_cons_skip marshal bw t der _ hr] at h1 ⊢
          exact ih h1
        · cases hbw : bw t writes with
          | error e2 => simp [handlerLoop, hr, hw, hbw]
          | ok u =>
            cases u
            have h1' : (handlerLoop marshal bw t rest).result = .error e := by
              simpa [handlerLoop, hr, hw, hbw] using h1
            simp [handlerLoop, hr, hw, hbw, ih h1']

theorem getPK_error_of_pkBad (img : Image) (h : pkBad img = true) :
    ∃ e, getPK img = .error e := by
  unfold pkBad at h
  unfold getPK
  cases hl : img.lookup "pk" with
  | none => exact ⟨_, rfl⟩
  | some v =>
    rw [hl] at h
    cases v with
    | S s => simp at h
    | L l => exact ⟨_, rfl⟩
    | other => exact ⟨_, rfl⟩

theorem reconcileRecord_error_of_pkBad (marshal : Marshal) (der : EventRecord)
    (h : (der.eventName = "REMOVE"
            ∧ ∃ img, der.change.OldImage = some img ∧ pkBad img = true)
       ∨ ((der.eventName = "MODIFY" ∨ der.eventName = "INSERT")
            ∧ ∃ img, der.change.NewImage = some img ∧ pkBad img = true)) :
    ∃ e, reconcileRecord marshal der = .error e := by
  rcases h with ⟨hn, img, himg, hbad⟩ | ⟨hn, img, himg, hbad⟩
  · obtain ⟨e, hpk⟩ := getPK_error_of_pkBad img hbad
    exact ⟨e, by simp [reconcileRecord, hn, himg, hpk, Bind.bind, Except.bind]⟩
  · obtain ⟨e, hpk⟩ := getPK_error_of_pkBad img hbad
    rcases hn with hn | hn
    · cases hold : der.change.OldImage with
      | none =>
        exact ⟨e, by simp [reconcileRecord, hn, himg, hold, hpk, Bind.bind, Except.bind]⟩
      | some o =>
        cases hgo : getOrgs o with
        | error e2 =>
          exact ⟨e2, by simp [reconcileRecord, hn, himg, hold, hgo, Bind.bind, Except.bind]⟩
        | ok l =>
          exact ⟨e, by simp [reconcileRecord, hn, himg, hold, hgo, hpk, Bind.bind, Except.bind]⟩
    · exact ⟨e, by simp [reconcileRecord, hn, himg, hpk, Bind.bind, Except.bind]⟩

/-! ## Claim theorems -/

/-- C1 (amended): reconciling a Modify event produces delete operations
for exactly the set of targets present in the before-list B but not in
the after-list A, and put operations for exactly the set of targets in A
but not in B — membership in the produced operations depends only on set
membership in B and A, hence is independent of order and of repetition —
but the operation list itself is not deduplicated (see the
counterexample: a repeated target yields one operation per occurrence). -/
theorem C1_theorem (userPK t : String) (B A : List String) :
    (deleteOp userPK t ∈ modifyWrites marshalMembership userPK B A
       ↔ t ∈ B ∧ t ∉ A)
    ∧ (putOp userPK t ∈ modifyWrites marshalMembership userPK B A
       ↔ t ∈ A ∧ t ∉ B) := by
  rw [modifyWrites_eq]
  constructor
  · constructor
    · intro h
      rcases List.mem_append.1 h with h1 | h2
      · rcases List.mem_map.1 h1 with ⟨o, ho, he⟩
        obtain rfl := deleteOp_inj userPK o t he
        have hf := List.mem_filter.1 ho
        exact ⟨hf.1, by simpa using hf.2⟩
      · rcases List.mem_map.1 h2 with ⟨o, ho, he⟩
        simp [putOp, deleteOp] at he
    · rintro ⟨hB, hA⟩
      exact List.mem_append.2 (Or.inl (List.mem_map.2
        ⟨t, List.mem_filter.2 ⟨hB, by simpa using hA⟩, rfl⟩))
  · constructor
    · intro h
      rcases List.mem_append.1 h with h1 | h2
      · rcases List.mem_map.1 h1 with ⟨o, ho, he⟩
        simp [putOp, deleteOp] at he
      · rcases List.mem_map.1 h2 with ⟨o, ho, he⟩
        obtain rfl := putOp_inj userPK o t he
        have hf := List.mem_filter.1 ho
        exact ⟨hf.1, by simpa using hf.2⟩
    · rintro ⟨hA, hB⟩
      exact List.mem_append.2 (Or.inr (List.mem_map.2
        ⟨t, List.mem_filter.2 ⟨hA, by simpa using hB⟩, rfl⟩))

/-- C1 counterexample: with before-list `["x","x"]` and after-list `[]`
the Modify reconciliation emits TWO identical delete operations, so the
produced operations are not "a set with no duplicate operations" as the
claim states. -/
theorem C1_counterexample :
    modifyWrites marshalMembership "USER#1" ["x", "x"] []
      = [deleteOp "USER#1" "x", deleteOp "USER#1" "x"]
    ∧ ¬ (modifyWrites marshalMembership "USER#1" ["x", "x"] []).Nodup :=
  ⟨by decide, by decide⟩

/-- C2: when the primary-key attribute of the snapshot relevant to the
event kind is missing or not a string, the per-record computation fails
(the attribute accessor's panic, modelled as `.error`), the whole batch
invocation returns that failure, and no storage call is made for that
notification or any notification after it (the calls performed are
exactly those of the prefix before the bad record). -/
theorem C2_theorem (marshal : Marshal) (bw : BatchWrite) (table : String)
    (pre post : List Body) (der : EventRecord)
    (h : (der.eventName = "REMOVE"
            ∧ ∃ img, der.change.OldImage = some img ∧ pkBad img = true)
       ∨ ((der.eventName = "MODIFY" ∨ der.eventName = "INSERT")
            ∧ ∃ img, der.change.NewImage = some img ∧ pkBad img = true))
    (hpre : (handlerLoop marshal bw table pre).result = .ok ()) :
    (∃ e, (handlerLoop marshal bw table (pre ++ Except.ok der :: post)).result
        = .error e)
    ∧ (handlerLoop marshal bw table (pre ++ Except.ok der :: post)).calls
        = (handlerLoop marshal bw table pre).calls := by
  obtain ⟨e, hrec⟩ := reconcileRecord_error_of_pkBad marshal der h
  rw [handlerLoop_append_ok marshal bw table pre _ hpre,
    handlerLoop_cons_error marshal bw table der post e hrec]
  exact ⟨⟨e, rfl⟩, by simp⟩

/-- C2 witness: a REMOVE record whose old image has no `pk` attribute
makes the whole batch fail with no storage call. -/
theorem C2_witness :
    (∃ e, (handlerLoop marshalMembership (fun _ _ => Except.ok ()) "T"
        ([] ++ Except.ok (⟨"REMOVE",
            ⟨some [("organizations", AttributeValue.L [])], none⟩⟩ : EventRecord)
          :: [])).result = Except.error e)
    ∧ (handlerLoop marshalMembership (fun _ _ => Except.ok ()) "T"
        ([] ++ Except.ok (⟨"REMOVE",
            ⟨some [("organizations", AttributeValue.L [])], none⟩⟩ : EventRecord)
          :: [])).calls
        = (handlerLoop marshalMembership (fun _ _ => Except.ok ()) "T" []).calls :=
  C2_theorem marshalMembership (fun _ _ => Except.ok ()) "T" [] []
    ⟨"REMOVE", ⟨some [("organizations", AttributeValue.L [])], none⟩⟩
    (Or.inl ⟨rfl, [("organizations", AttributeValue.L [])], rfl, rfl⟩) rfl

/-- C3 (amended): when encoding an index record for a put fails, the
affected operation is silently skipped (`continue`): the emitted write
set consists of exactly the successfully encoded puts, in order, and no
error is raised for the notification — the incomplete write set is
submitted unflagged. -/
theorem C3_theorem (marshal : Marshal) (userPK : String) (orgs : List String) :
    createWriteRequests marshal userPK orgs false
      = orgs.filterMap (fun orgID =>
          (marshal ("ORGANIZATION#" ++ orgID)
              ("MEMBERSHIP#" ++ extractUserID userPK)).map WriteRequest.put)
    ∧ ∀ pk : String,
        reconcileRecord marshal ⟨"INSERT", ⟨none, some (mkImage pk orgs)⟩⟩
          = .ok (createWriteRequests marshal pk orgs false) := by
  refine ⟨createWriteRequests_filterMap marshal userPK orgs, fun pk => ?_⟩
  simp [reconcileRecord, getPK_mkImage, getOrgs_mkImage, Bind.bind, Except.bind]

/-- C3 counterexample: with a marshaller failing on `ORGANIZATION#bad`,
an INSERT for user `USER#1` with organizations `bad, good` drops the
`bad` put, raises no error, and submits the remaining incomplete write
set — contradicting the claim that the implementation raises an error
rather than swallowing the failure. -/
theorem C3_counterexample :
    failingMarshal "ORGANIZATION#bad" "MEMBERSHIP#1" = none
    ∧ reconcileRecord failingMarshal insertBadGood
        = .ok [putOp "USER#1" "good"]
    ∧ (handlerLoop failingMarshal (fun _ _ => Except.ok ()) "T"
        [Except.ok insertBadGood]).result = .ok ()
    ∧ (handlerLoop failingMarshal (fun _ _ => Except.ok ()) "T"
        [Except.ok insertBadGood]).calls
        = [⟨"T", [putOp "USER#1" "good"]⟩]
    ∧ putOp "USER#1" "bad" ∉ [putOp "USER#1" "good"] := by
  refine ⟨by decide, by decide, by decide, by decide, by decide⟩

/-- C4: reconciling an Insert event with after image N produces the same
write sequence (and the same failure behaviour) as reconciling a Modify
event with no before image and after image N; and reconciling a Remove
event over a well-formed before image with key pk and memberships B
produces the same write sequence as reconciling a Modify event from that
before image to an after image with the same key and empty memberships. -/
theorem C4_theorem (marshal : Marshal) :
    (∀ (oldImg : Option Image) (newImg : Image),
      reconcileRecord marshal ⟨"INSERT", ⟨oldImg, some newImg⟩⟩
        = reconcileRecord marshal ⟨"MODIFY", ⟨none, some newImg⟩⟩)
    ∧ (∀ (pk : String) (B : List String) (newImg : Option Image),
        reconcileRecord marshal ⟨"REMOVE", ⟨some (mkImage pk B), newImg⟩⟩
          = reconcileRecord marshal
              ⟨"MODIFY", ⟨some (mkImage pk B), some (mkImage pk [])⟩⟩) := by
  constructor
  · intro oldImg newImg
    simp only [reconcileRecord]
    cases hpk : getPK newImg with
    | error e => simp [Bind.bind, Except.bind, hpk]
    | ok pk =>
      cases ho : getOrgs newImg with
      | error e => simp [Bind.bind, Except.bind, hpk, ho]
      | ok orgs => simp [Bind.bind, Except.bind, hpk, ho, modifyWrites_nil_left]
  · intro pk B newImg
    simp only [reconcileRecord, getPK_mkImage, getOrgs_mkImage]
    simp [Bind.bind, Except.bind, modifyWrites_nil_right]

/-- C5: on the worked example (`USER#123`, before `["org1","org2"]`,
after `["org2","org3"]`, event Modify) the writes are exactly one delete
keyed `ORGANIZATION#org1` / `MEMBERSHIP#123` and one put keyed
`ORGANIZATION#org3` / `MEMBERSHIP#123` (in particular nothing mentions
`org2`); and in general every operation the Modify reconciliation emits
is, for some target t drawn from the before- or after-list, keyed
`pk = "ORGANIZATION#" + t`, `sk = "MEMBERSHIP#" + extractUserID entityPK`. -/
theorem C5_theorem :
    reconcileRecord marshalMembership exampleModify
      = .ok [WriteRequest.delete
               [("pk", AttributeValue.S "ORGANIZATION#org1"),
                ("sk", AttributeValue.S "MEMBERSHIP#123")],
             WriteRequest.put
               [("pk", AttributeValue.S "ORGANIZATION#org3"),
                ("sk", AttributeValue.S "MEMBERSHIP#123")]]
    ∧ ∀ (entityPK : String) (B A : List String) (op : WriteRequest),
        op ∈ modifyWrites marshalMembership entityPK B A →
        ∃ t, (t ∈ B ∨ t ∈ A)
          ∧ (op = deleteOp entityPK t ∨ op = putOp entityPK t) := by
  constructor
  · decide
  · intro entityPK B A op hop
    rw [modifyWrites_eq] at hop
    rcases List.mem_append.1 hop with h | h
    · rcases List.mem_map.1 h with ⟨t, ht, rfl⟩
      exact ⟨t, Or.inl (List.mem_filter.1 ht).1, Or.inl rfl⟩
    · rcases List.mem_map.1 h with ⟨t, ht, rfl⟩
      exact ⟨t, Or.inr (List.mem_filter.1 ht).1, Or.inr rfl⟩

/-- C5 witness: the key-shape characterisation applied to the single
delete produced by Modify from `["org1"]` to `[]`. -/
theorem C5_witness :
    ∃ t, (t ∈ (["org1"] : List String) ∨ t ∈ ([] : List String))
      ∧ (deleteOp "USER#123" "org1" = deleteOp "USER#123" t
         ∨ deleteOp "USER#123" "org1" = putOp "USER#123" t) :=
  C5_theorem.2 "USER#123" ["org1"] [] (deleteOp "USER#123" "org1") (by decide)

/-- C6 (amended): `extractUserID` returns the segment strictly between
the first separator and the following separator (or the end of the key)
— not the whole remainder after the first separator; with no separator it
returns the key unchanged; the three examples of the claim hold. -/
theorem C6_theorem :
    (∀ k : String, sep ∉ k.toList → extractUserID k = k)
    ∧ (∀ a b : String, sep ∉ a.toList → sep ∉ b.toList →
        extractUserID (a ++ "#" ++ b) = b)
    ∧ (∀ a b r : String, sep ∉ a.toList → sep ∉ b.toList →
        extractUserID (a ++ "#" ++ b ++ "#" ++ r) = b)
    ∧ extractUserID "USER#123" = "123"
    ∧ extractUserID "USER123" = "USER123"
    ∧ extractUserID "" = "" :=
  ⟨extractUserID_no_sep, extractUserID_two, extractUserID_three,
   by decide, by decide, by decide⟩

/-- C6 counterexample: on `"USER#123#456"` the code returns `"123"`,
while stripping everything up through the (first) separator and returning
the remainder would give `"123#456"`. -/
theorem C6_counterexample :
    extractUserID "USER#123#456" = "123"
    ∧ localID_claim "USER#123#456" = "123#456"
    ∧ extractUserID "USER#123#456" ≠ localID_claim "USER#123#456" :=
  ⟨by decide, by decide, by decide⟩

/-- C6 witness: the two-segment characterisation at a concrete key. -/
theorem C6_witness : extractUserID ("USER" ++ "#" ++ "123") = "123" :=
  C6_theorem.2.1 "USER" "123" (by decide) (by decide)

/-- C7: a decoded notification lacking the snapshot its event kind reads
(REMOVE with no old image, MODIFY or INSERT with no new image) reconciles
to zero writes with no error; and any notification whose computed write
list is empty is skipped entirely — the batch behaves (calls, logs and
result) exactly as if the notification were not present. -/
theorem C7_theorem (marshal : Marshal) (bw : BatchWrite) (table : String) :
    (∀ der : EventRecord,
      ((der.eventName = "REMOVE" ∧ der.change.OldImage = none)
        ∨ ((der.eventName = "MODIFY" ∨ der.eventName = "INSERT")
            ∧ der.change.NewImage = none)) →
      reconcileRecord marshal der = .ok [])
    ∧ (∀ (der : EventRecord) (pre post : List Body),
        reconcileRecord marshal der = .ok [] →
        handlerLoop marshal bw table (pre ++ Except.ok der :: post)
          = handlerLoop marshal bw table (pre ++ post)) := by
  constructor
  · rintro der (⟨hn, himg⟩ | ⟨hn | hn, himg⟩) <;>
      simp [reconcileRecord, hn, himg]
  · intro der pre post h
    cases hres : (handlerLoop marshal bw table pre).result with
    | ok u =>
      cases u
      rw [handlerLoop_append_ok marshal bw table pre (Except.ok der :: post) hres,
        handlerLoop_append_ok marshal bw table pre post hres,
        handlerLoop_cons_skip marshal bw table der post h]
    | error e =>
      rw [handlerLoop_append_error marshal bw table pre (Except.ok der :: post) e hres,
        handlerLoop_append_error marshal bw table pre post e hres]

/-- C7 witness: a REMOVE with no old image yields zero writes, and its
presence in a batch changes nothing. -/
theorem C7_witness :
    reconcileRecord marshalMembership (⟨"REMOVE", ⟨none, none⟩⟩ : EventRecord)
      = Except.ok []
    ∧ handlerLoop marshalMembership (fun _ _ => Except.ok ()) "T"
        ([] ++ Except.ok (⟨"REMOVE", ⟨none, none⟩⟩ : EventRecord) :: [])
      = handlerLoop marshalMembership (fun _ _ => Except.ok ()) "T" ([] ++ []) :=
  ⟨(C7_theorem marshalMembership (fun _ _ => Except.ok ()) "T").1
      ⟨"REMOVE", ⟨none, none⟩⟩ (Or.inl ⟨rfl, rfl⟩),
   (C7_theorem marshalMembership (fun _ _ => Except.ok ()) "T").2
      ⟨"REMOVE", ⟨none, none⟩⟩ [] [] (by decide)⟩

/-- C8 (amended): when the batch-write call for one notification fails,
the handler returns the failure immediately: the storage calls performed
are exactly those of the successful prefix plus the single failing call
(no notification after it is attempted and the failing call is not
retried); the returned error is the fixed wrap of the storage error —
naming neither the destination table nor the operation count — and that
contextual detail (table, number of operations in flight) is carried
instead by the error-level log entry emitted at the failure. -/
theorem C8_theorem (marshal : Marshal) (bw : BatchWrite) (table : String)
    (pre post : List Body) (der : EventRecord)
    (writes : List WriteRequest) (e : String)
    (hpre : (handlerLoop marshal bw table pre).result = .ok ())
    (hrec : reconcileRecord marshal der = .ok writes)
    (hne : writes ≠ [])
    (hbw : bw table writes = .error e) :
    handlerLoop marshal bw table (pre ++ Except.ok der :: post)
      = ⟨(handlerLoop marshal bw table pre).calls ++ [⟨table, writes⟩],
         (handlerLoop marshal bw table pre).logs
           ++ [infoWriteLog table writes.length,
               errorWriteLog table writes.length],
         .error ("failed to batch write organization memberships: " ++ e)⟩ := by
  rw [handlerLoop_append_ok marshal bw table pre _ hpre,
    handlerLoop_cons_bwfail marshal bw table der post writes e hrec hne hbw]

/-- C8 witness: a storage collaborator failing with "boom" on the first
notification aborts the batch with the wrapped error, one call in flight,
and the error log naming table and count. -/
theorem C8_witness :
    handlerLoop marshalMembership (fun _ _ => Except.error "boom") "T"
        ([] ++ Except.ok insertBadGood :: [])
      = ⟨(handlerLoop marshalMembership (fun _ _ => Except.error "boom") "T" []).calls
           ++ [⟨"T", [putOp "USER#1" "bad", putOp "USER#1" "good"]⟩],
         (handlerLoop marshalMembership (fun _ _ => Except.error "boom") "T" []).logs
           ++ [infoWriteLog "T" [putOp "USER#1" "bad", putOp "USER#1" "good"].length,
               errorWriteLog "T" [putOp "USER#1" "bad", putOp "USER#1" "good"].length],
         .error ("failed to batch write organization memberships: " ++ "boom")⟩ :=
  C8_theorem marshalMembership (fun _ _ => Except.error "boom") "T" [] []
    insertBadGood [putOp "USER#1" "bad", putOp "USER#1" "good"] "boom"
    rfl (by decide) (by decide) rfl

/-- C8 counterexample: with destination table `my-dest-table` and a
two-operation notification whose batch write fails with "boom", the
error the handler returns is exactly the fixed wrap
`failed to batch write organization memberships: boom`, and that message
contains neither the destination table name nor the in-flight operation
count ("2") as a substring — so the surfaced error does not carry the
contextual detail the claim states (it lives only in the error log). -/
theorem C8_counterexample :
    (handlerLoop marshalMembership (fun _ _ => Except.error "boom") "my-dest-table"
        [Except.ok insertBadGood]).result
      = Except.error "failed to batch write organization memberships: boom"
    ∧ (handlerLoop marshalMembership (fun _ _ => Except.error "boom") "my-dest-table"
        [Except.ok insertBadGood]).calls
      = [⟨"my-dest-table", [putOp "USER#1" "bad", putOp "USER#1" "good"]⟩]
    ∧ ¬ ("my-dest-table".toList
          <:+: "failed to batch write organization memberships: boom".toList)
    ∧ ¬ ("2".toList
          <:+: "failed to batch write organization memberships: boom".toList) :=
  ⟨by decide, by decide, by decide, by decide⟩

end DynamoStreams
